import Mathlib

/-!
# Websocket relay of fzf: server and client

A shallow embedding of `src/websocket_server.go` and `src/websocket_client.go`.

Conventions of the embedding.

* A `*websocket.Conn` is identified by a natural number.
* Every call that reaches outside the program (a write on a connection, a close, a status
  line, a send on the action channel, `log.Fatal`, `os.Exit`) is appended to a trace, in
  program order.  What a peer receives is read back from the trace.
* Results that the environment decides (does a write fail, what does `ReadMessage` return,
  does the upgrade succeed, which order does `range` over a map pick) are arguments.
* The action parser `parseSingleActionList` and `listenAddress.IsLocal` live in other files
  of the program; they are arguments as well.
-/

namespace Fzf

/-! ## Data model -/

/-- Identity of a `*websocket.Conn`. -/
abbrev Conn := Nat

/-- Message type `websocket.TextMessage`. -/
def TextMessage : Int := 1
/-- Message type `websocket.BinaryMessage`. -/
def BinaryMessage : Int := 2
/-- Message type `websocket.CloseMessage`. -/
def CloseMessage : Int := 8
/-- Message type `websocket.PingMessage`. -/
def PingMessage : Int := 9
/-- Message type `websocket.PongMessage`. -/
def PongMessage : Int := 10

/-- Status code `http.StatusUnauthorized`. -/
def StatusUnauthorized : Nat := 401

/-- An `*action`, as far as the relay looks at it: the name of its type. -/
structure Action where
  name : String
  deriving DecidableEq, Repr

/-- An `http.Header`: field names with their values. -/
abbrev Header := List (String × List String)

/-- The map index `h[key]`: the values of the field, none when the field is absent. -/
def headerValues (h : Header) (key : String) : List String :=
  (h.lookup key).getD []

/-- The method `http.Header.Get`: the first value of the field, the empty string when the
field has no value. -/
def headerGet (h : Header) (key : String) : String :=
  match headerValues h key with
  | [] => ""
  | v :: _ => v

/-- The part of an `*http.Request` the handler reads. -/
structure Request where
  remoteAddr : String
  header : Header
  deriving DecidableEq, Repr

/-- One observable call of the program. -/
inductive Effect where
  /-- The call `w.WriteHeader(status)`. -/
  | writeHeader (status : Nat)
  /-- A successful `upgrader.Upgrade`, yielding connection `ws`. -/
  | upgrade (ws : Conn)
  /-- A `ws.WriteMessage(messageType, data)` that returned no error. -/
  | write (ws : Conn) (messageType : Int) (data : String)
  /-- A `ws.WriteMessage(messageType, data)` that returned an error. -/
  | writeErr (ws : Conn) (messageType : Int) (data : String)
  /-- The call `ws.Close()`. -/
  | close (ws : Conn)
  /-- The send `actionChannel <- actions`. -/
  | send (actions : List Action)
  /-- The call `log.Fatal`, which ends the process with status 1. -/
  | fatal
  /-- The call `os.Exit(code)`. -/
  | osExit (code : Nat)
  /-- The call `net.Listen("tcp", addr)`. -/
  | listen (addr : String)
  /-- A `go` statement starting the named task. -/
  | go (task : String)
  /-- The call `dialer.DialContext(ctx, urlStr, requestHeader)`. -/
  | dial (urlStr : String) (requestHeader : Header)
  deriving DecidableEq, Repr

/-- The struct `websocketServer`.  The channels are represented by the trace and by the
inputs of the loops; the field `replayMutex` is declared in the source and never locked. -/
structure WebsocketServer where
  apiKey : String
  clients : AList (fun _ : Conn => String)
  relayBuffer : List String
  replay : Bool
  deriving DecidableEq

/-- A server together with the trace of the calls made so far. -/
structure World where
  server : WebsocketServer
  trace : List Effect
  deriving DecidableEq

/-- Append one call to the trace. -/
def World.emit (w : World) (e : Effect) : World :=
  { w with trace := w.trace ++ [e] }

/-- The statement `delete(server.clients, ws)`. -/
def World.deleteClient (w : World) (ws : Conn) : World :=
  { w with server := { w.server with clients := w.server.clients.erase ws } }

/-- The statement `server.clients[ws] = label`. -/
def World.register (w : World) (ws : Conn) (label : String) : World :=
  { w with server := { w.server with clients := w.server.clients.insert ws label } }

/-- The function `strings.Trim(s, cutset)`: drop the leading and the trailing characters
that occur in `cutset`. -/
def stringsTrim (s : String) (cutset : String) : String :=
  String.mk ((s.toList.dropWhile (fun c => cutset.toList.contains c)).reverse.dropWhile
    (fun c => cutset.toList.contains c)).reverse

/-- How one turn of a read loop ends. -/
inductive LoopCtl where
  /-- The statement `continue`, or falling off the end of the loop body. -/
  | next
  /-- The statement `break`. -/
  | stop
  /-- The process was ended by `log.Fatal` or `os.Exit`. -/
  | dead
  deriving DecidableEq, Repr

/-- What `ws.ReadMessage()` returns. -/
inductive ReadResult where
  /-- A non-nil error. -/
  | err
  /-- A message of the given type. -/
  | msg (messageType : Int) (message : String)
  deriving DecidableEq, Repr

/-! ## Server: responses -/

/-- The method `websocketServer.bad`; `wok` tells whether the write succeeds. -/
def WebsocketServer.bad (ws : Conn) (message : String) (wok : Bool) (w : World) : World :=
  let response := "[bad] " ++ message
  if wok then w.emit (.write ws TextMessage response)
  else (w.emit (.writeErr ws TextMessage response)).deleteClient ws

/-- The method `websocketServer.good`; `wok` tells whether the write succeeds. -/
def WebsocketServer.good (ws : Conn) (message : String) (wok : Bool) (w : World) : World :=
  let response := "[good] " ++ message
  if wok then w.emit (.write ws TextMessage response)
  else (w.emit (.writeErr ws TextMessage response)).deleteClient ws

/-! ## Server: `handleConnections` -/

/-- How the first part of `handleConnections` (up to the registration of the peer) ends. -/
inductive Accepted where
  /-- The handler answered 401 and returned. -/
  | rejected
  /-- The upgrade failed and `log.Fatal` ended the process. -/
  | dead
  /-- The connection was upgraded to `ws` and registered. -/
  | joined (ws : Conn)
  deriving DecidableEq, Repr

/-- Lines 95 to 112 of `handleConnections`: the check of the `Fzf-Api-Key` header against
`os.Getenv("FZF_API_KEY")` (here `env`), the upgrade (its result is `up`) and the
registration of the new connection. -/
def handleConnectionsAccept (env : String) (up : Except String Conn) (r : Request)
    (w : World) : World × Accepted :=
  if headerGet r.header "Fzf-Api-Key" ≠ env then
    (w.emit (.writeHeader StatusUnauthorized), .rejected)
  else
    match up with
    | .error _ => (w.emit .fatal, .dead)
    | .ok ws =>
      ((w.emit (.upgrade ws)).register ws ("Client-" ++ r.remoteAddr), .joined ws)

/-- The loop `for _, msg := range server.relayBuffer` of `handleConnections`, over the
messages still to send; `wok i` tells whether the write of the message at index `i`
succeeds.  The result is `false` when a write failed and the handler returns. -/
def replayLoop (ws : Conn) (wok : Nat → Bool) : List String → Nat → World → World × Bool
  | [], _, w => (w, true)
  | msg :: rest, i, w =>
    if wok i then replayLoop ws wok rest (i + 1) (w.emit (.write ws TextMessage msg))
    else (((w.emit (.writeErr ws TextMessage msg)).emit (.close ws)).deleteClient ws, false)

/-- Lines 115 to 126 of `handleConnections`: the replay of the relay buffer. -/
def handleConnectionsReplay (ws : Conn) (wok : Nat → Bool) (w : World) : World × Bool :=
  if w.server.replay then replayLoop ws wok w.server.relayBuffer 0 w else (w, true)

/-- One turn of the read loop of `handleConnections` (lines 129 to 179): `rd` is what
`ws.ReadMessage()` returns, `wok` whether the write of this turn (if any) succeeds. -/
def handleConnectionsRead (parse : String → Except String (List Action)) (ws : Conn)
    (rd : ReadResult) (wok : Bool) (w : World) : World × LoopCtl :=
  match rd with
  | .err => (w.deleteClient ws, .stop)
  | .msg messageType message =>
    if messageType = CloseMessage then (w.deleteClient ws, .stop)
    else if messageType = BinaryMessage then (w.emit .fatal, .dead)
    else if messageType = PingMessage then
      if wok then (w.emit (.write ws PongMessage ""), .next)
      else ((w.emit (.writeErr ws PongMessage "")).deleteClient ws, .stop)
    else if messageType = PongMessage then (w, .next)
    else if messageType ≠ TextMessage then (w.emit .fatal, .dead)
    else
      match parse (stringsTrim message "\r\n") with
      | .error err => (WebsocketServer.bad ws err wok w, .next)
      | .ok actions =>
        if actions.length = 0 then (WebsocketServer.bad ws "no action specified" wok w, .next)
        else (w.emit (.send actions), .next)

/-- The read loop of `handleConnections` over the frames that arrive.  When the frames are
used up the handler is blocked in `ReadMessage` and the result is `next`. -/
def readLoop (parse : String → Except String (List Action)) (ws : Conn) :
    List (ReadResult × Bool) → World → World × LoopCtl
  | [], w => (w, .next)
  | (rd, wok) :: rest, w =>
    match handleConnectionsRead parse ws rd wok w with
    | (w1, .next) => readLoop parse ws rest w1
    | (w1, c) => (w1, c)

/-- How a run of `handleConnections` ends. -/
inductive HandlerEnd where
  /-- The handler returned; its deferred `ws.Close()` (if any) has run. -/
  | returned
  /-- The process was ended by `log.Fatal`. -/
  | dead
  /-- The handler waits in `ReadMessage`. -/
  | reading
  deriving DecidableEq, Repr

/-- Lines 128 to 181 of `handleConnections`: the read loop and what follows it.  The
statement `defer ws.Close()` makes the return close `ws`; a `log.Fatal` runs no deferred
call. -/
def handleConnectionsServe (parse : String → Except String (List Action)) (ws : Conn)
    (frames : List (ReadResult × Bool)) (w : World) : World × HandlerEnd :=
  match readLoop parse ws frames w with
  | (w1, .stop) => (w1.emit (.close ws), .returned)
  | (w1, .dead) => (w1, .dead)
  | (w1, .next) => (w1, .reading)

/-- The method `websocketServer.handleConnections`, run without interruption.  A return
after the upgrade runs the deferred `ws.Close()`. -/
def handleConnections (parse : String → Except String (List Action)) (env : String)
    (up : Except String Conn) (r : Request) (wokReplay : Nat → Bool)
    (frames : List (ReadResult × Bool)) (w : World) : World × HandlerEnd :=
  match handleConnectionsAccept env up r w with
  | (w1, .rejected) => (w1, .returned)
  | (w1, .dead) => (w1, .dead)
  | (w1, .joined ws) =>
    match handleConnectionsReplay ws wokReplay w1 with
    | (w2, false) => (w2.emit (.close ws), .returned)
    | (w2, true) => handleConnectionsServe parse ws frames w2

/-! ## Server: `handleBroadcastMessages` -/

/-- Put `a` at position `i` of a list (at the end when the list is shorter). -/
def insertAt (a : Conn) : Nat → List Conn → List Conn
  | 0, l => a :: l
  | _ + 1, [] => [a]
  | i + 1, b :: l => b :: insertAt a i l

/-- The order in which `range` visits the keys of a map: a rearrangement of the keys, picked
by `seed`.  Every rearrangement is picked by some seed (`rangeOrder_complete`). -/
def rangeOrder : Nat → List Conn → List Conn
  | _, [] => []
  | seed, k :: ks =>
    insertAt k (seed % (ks.length + 1)) (rangeOrder (seed / (ks.length + 1)) ks)

/-- The loop `for client := range server.clients` of `handleBroadcastMessages` over the
keys still to visit.  An entry deleted before it is reached is not visited; `wok client`
tells whether the write to `client` succeeds. -/
def fanOut (msg : String) (wok : Conn → Bool) : List Conn → World → World
  | [], w => w
  | client :: rest, w =>
    if (w.server.clients.lookup client).isSome then
      if wok client then fanOut msg wok rest (w.emit (.write client TextMessage msg))
      else fanOut msg wok rest
        (((w.emit (.writeErr client TextMessage msg)).emit (.close client)).deleteClient client)
    else fanOut msg wok rest w

/-- One turn of the loop of `handleBroadcastMessages` for the message `msg` taken from the
broadcast channel. -/
def broadcastOne (seed : Nat) (wok : Conn → Bool) (msg : String) (w : World) : World :=
  let w1 : World :=
    { w with server := { w.server with relayBuffer := w.server.relayBuffer ++ [msg] } }
  fanOut msg wok (rangeOrder seed w1.server.clients.keys) w1

/-- One message arriving on the broadcast channel, with what the environment decides
during its turn. -/
structure Publish where
  msg : String
  seed : Nat
  wok : Conn → Bool

/-- The method `websocketServer.handleBroadcastMessages` over the messages published on
the broadcast channel, in publish order.  When they are used up the loop waits. -/
def handleBroadcastMessages : List Publish → World → World
  | [], w => w
  | p :: rest, w => handleBroadcastMessages rest (broadcastOne p.seed p.wok p.msg w)

/-! ## Server: `startWebsocketServer` -/

/-- The struct `listenAddress`. -/
structure ListenAddress where
  host : String
  port : Int
  deriving DecidableEq, Repr

/-- The function `startWebsocketServer`.  `isLocal` is the method `listenAddress.IsLocal`,
`env` the value of `FZF_API_KEY`, `netListen` the outcome of `net.Listen` (the bound port
or an error).  `len(apiKey)` counts bytes and is zero exactly for the empty string.  The
result is the returned triple and the calls made. -/
def startWebsocketServer (isLocal : ListenAddress → Bool) (env : String)
    (netListen : String → Except String Int) (address : ListenAddress) :
    (Int × Option String × Option WebsocketServer) × List Effect :=
  let host := address.host
  let port := address.port
  let apiKey := env
  if !isLocal address && apiKey.length == 0 then
    ((port, some "FZF_API_KEY is required to allow remote access", none), [])
  else
    let addrStr := host ++ ":" ++ toString port
    match netListen addrStr with
    | .error err => ((0, some err, none), [.listen addrStr])
    | .ok bound =>
      ((bound, none, some
          { apiKey := apiKey, clients := ∅, relayBuffer := [], replay := true }),
        [.listen addrStr, .go "server.handleBroadcastMessages", .go "http.Serve"])

/-! ## Client -/

/-- The struct `websocketClient`. -/
structure WebsocketClient where
  apiKey : String
  wsConn : Conn
  deriving DecidableEq, Repr

/-- What `dialer.DialContext` returns: an error, or a connection and the header of the
handshake response. -/
inductive DialResult where
  | err (e : String)
  | ok (wsConn : Conn) (res : Header)
  deriving DecidableEq, Repr

/-- The function `startWebsocketClient` up to its return.  `env` is the value of
`FZF_API_KEY`; `newRequest` is `http.NewRequest("GET", connectAddress, nil)` reduced to
`req.URL.String()` (or its error); the header of the fresh request is empty and the source
adds nothing to it before passing it to the dialer; `dial` is the dialer.  The result is
the returned pair and the calls made. -/
def startWebsocketClient (env : String) (newRequest : String → Except String String)
    (dial : String → Header → DialResult) (connectAddress : String) :
    (Option String × Option WebsocketClient) × List Effect :=
  let apiKey := env
  if apiKey.length == 0 then
    ((some "FZF_API_KEY is required to use websocket client", none), [])
  else
    match newRequest connectAddress with
    | .error err => ((some err, none), [])
    | .ok reqURL =>
      let reqHeader : Header := []
      match dial reqURL reqHeader with
      | .err err => ((some err, none), [.dial reqURL reqHeader])
      | .ok wsConn res =>
        let k := headerGet res "Fzf-Api-Key"
        if k ≠ env then
          ((some "server did not provide valid fzf api key", none),
            [.dial reqURL reqHeader, .close wsConn])
        else
          ((none, some { apiKey := apiKey, wsConn := wsConn }),
            [.dial reqURL reqHeader, .go "client.handleBroadcastMessages", .go "read loop"])

/-- The method `websocketClient.bad`; `wok` tells whether the write succeeds. -/
def WebsocketClient.bad (ws : Conn) (message : String) (wok : Bool) (t : List Effect) :
    List Effect :=
  let response := "[bad] " ++ message
  if wok then t ++ [.write ws TextMessage response]
  else t ++ [.writeErr ws TextMessage response, .close ws]

/-- One turn of the read loop started by `startWebsocketClient` (lines 64 to 86): `rd` is
what `wsConn.ReadMessage()` returns (the message type is dropped), `wok` whether the write
of this turn succeeds. -/
def clientRead (parse : String → Except String (List Action)) (wsConn : Conn)
    (rd : ReadResult) (wok : Bool) (t : List Effect) : List Effect × LoopCtl :=
  match rd with
  | .err => (t ++ [.osExit 68], .dead)
  | .msg _ message =>
    match parse (stringsTrim message "\r\n") with
    | .error err => (WebsocketClient.bad wsConn err wok t, .next)
    | .ok actions =>
      if actions.length = 0 then (WebsocketClient.bad wsConn "no action specified" wok t, .next)
      else (t ++ [.send actions], .next)

/-! ## Reading the trace -/

/-- The messages a peer received: the successful writes on its connection, in order. -/
def delivered (p : Conn) (t : List Effect) : List (Int × String) :=
  t.filterMap fun e =>
    match e with
    | .write ws messageType data => if ws = p then some (messageType, data) else none
    | _ => none

/-- The calls of `WriteMessage`, successful or not, in order. -/
def writeCalls (t : List Effect) : List (Conn × Int × String) :=
  t.filterMap fun e =>
    match e with
    | .write ws messageType data => some (ws, messageType, data)
    | .writeErr ws messageType data => some (ws, messageType, data)
    | _ => none

/-- The action lists sent on the action channel, in order. -/
def sentActions (t : List Effect) : List (List Action) :=
  t.filterMap fun e =>
    match e with
    | .send actions => some actions
    | _ => none

/-- The number of calls of `Close` on the connection `p`. -/
def closeCount (p : Conn) (t : List Effect) : Nat :=
  t.count (.close p)

/-- The calls of the dialer, in order: the address and the request header passed. -/
def dialCalls (t : List Effect) : List (String × Header) :=
  t.filterMap fun e =>
    match e with
    | .dial urlStr requestHeader => some (urlStr, requestHeader)
    | _ => none

/-! ## The handshake of the client against the server

The opening handshake belongs to the websocket library.  What matters here: the dialer
sends the caller's request header together with its own handshake fields, none of which
is `Fzf-Api-Key`; it fails with `websocket: bad handshake` unless the server switches
protocols; the response of `upgrader.Upgrade(w, r, nil)` carries the handshake fields of
the upgrader and the fields of its last argument, which is `nil` in `handleConnections`. -/

/-- The fields the dialer adds to the request header. -/
def dialerFields : Header :=
  [("Upgrade", ["websocket"]), ("Connection", ["Upgrade"]),
   ("Sec-Websocket-Key", ["dGhlIHNhbXBsZSBub25jZQ=="]), ("Sec-Websocket-Version", ["13"])]

/-- The header of the response written by `upgrader.Upgrade(w, r, responseHeader)`. -/
def upgradeResponse (responseHeader : Header) : Header :=
  [("Upgrade", ["websocket"]), ("Connection", ["Upgrade"]),
   ("Sec-Websocket-Accept", ["s3pPLMBiTxaQ9kYGzzhZRbK+xOo="])] ++ responseHeader

/-- The dialer run against a server whose handler is `handleConnections` with the secret
`serverEnv`: the request reaches `handleConnectionsAccept`; when the server registers the
peer the dialer returns the connection `wsConn` and the response header. -/
def dialServer (serverEnv : String) (remoteAddr : String) (up : Except String Conn)
    (w : World) (wsConn : Conn) : String → Header → DialResult :=
  fun _ requestHeader =>
    match handleConnectionsAccept serverEnv up ⟨remoteAddr, requestHeader ++ dialerFields⟩ w with
    | (_, .joined _) => .ok wsConn (upgradeResponse [])
    | _ => .err "websocket: bad handshake"

/-! ## Sample inputs -/

/-- A sample action parser: the empty line has no action, `reload()` has one, anything
else is an error. -/
def sampleParse : String → Except String (List Action) := fun line =>
  if line = "" then .ok []
  else if line = "reload()" then .ok [⟨"reload"⟩]
  else .error ("unknown action: " ++ line)

/-- A sample registry with the peers 1 and 2. -/
def sampleClients : AList (fun _ : Conn => String) :=
  ((∅ : AList (fun _ : Conn => String)).insert 2 "Client-b").insert 1 "Client-a"

/-- A sample server: two peers, the messages `m1` and `m2` already broadcast. -/
def sampleWorld : World :=
  ⟨⟨"", sampleClients, ["m1", "m2"], true⟩, []⟩

/-- A sample `IsLocal`: the hosts `localhost` and `127.0.0.1` are local. -/
def sampleIsLocal (a : ListenAddress) : Bool :=
  a.host == "localhost" || a.host == "127.0.0.1"

/-! ## Lemmas on the trace -/

@[simp] theorem emit_trace (w : World) (e : Effect) : (w.emit e).trace = w.trace ++ [e] := rfl

@[simp] theorem emit_server (w : World) (e : Effect) : (w.emit e).server = w.server := rfl

@[simp] theorem deleteClient_trace (w : World) (ws : Conn) :
    (w.deleteClient ws).trace = w.trace := rfl

@[simp] theorem deleteClient_clients (w : World) (ws : Conn) :
    (w.deleteClient ws).server.clients = w.server.clients.erase ws := rfl

@[simp] theorem deleteClient_relayBuffer (w : World) (ws : Conn) :
    (w.deleteClient ws).server.relayBuffer = w.server.relayBuffer := rfl

@[simp] theorem register_trace (w : World) (ws : Conn) (label : String) :
    (w.register ws label).trace = w.trace := rfl

@[simp] theorem register_clients (w : World) (ws : Conn) (label : String) :
    (w.register ws label).server.clients = w.server.clients.insert ws label := rfl

@[simp] theorem register_relayBuffer (w : World) (ws : Conn) (label : String) :
    (w.register ws label).server.relayBuffer = w.server.relayBuffer := rfl

@[simp] theorem register_replay (w : World) (ws : Conn) (label : String) :
    (w.register ws label).server.replay = w.server.replay := rfl

@[simp] theorem delivered_append (p : Conn) (t u : List Effect) :
    delivered p (t ++ u) = delivered p t ++ delivered p u := by
  simp [delivered, List.filterMap_append]

@[simp] theorem writeCalls_append (t u : List Effect) :
    writeCalls (t ++ u) = writeCalls t ++ writeCalls u := by
  simp [writeCalls, List.filterMap_append]

@[simp] theorem sentActions_append (t u : List Effect) :
    sentActions (t ++ u) = sentActions t ++ sentActions u := by
  simp [sentActions, List.filterMap_append]

@[simp] theorem closeCount_append (p : Conn) (t u : List Effect) :
    closeCount p (t ++ u) = closeCount p t + closeCount p u := by
  simp [closeCount, List.count_append]

/-! ## The authentication gate -/

/-- C1, as stated, fails: with the empty secret a request without the `Fzf-Api-Key` header
is not answered with 401; it is upgraded and registered. -/
theorem handleConnections_empty_secret_accepts_absent_header :
    headerValues ([] : Header) "Fzf-Api-Key" = [] ∧
    handleConnections sampleParse "" (.ok 7) ⟨"127.0.0.1:5000", []⟩ (fun _ => true) []
        ⟨⟨"", ∅, [], true⟩, []⟩
      = (⟨⟨"", (∅ : AList (fun _ : Conn => String)).insert 7 "Client-127.0.0.1:5000", [],
            true⟩, [.upgrade 7]⟩, .reading) :=
  ⟨by decide, by rfl⟩

/-- C1, amended: when the `Fzf-Api-Key` header differs from the secret, or is absent while
the secret is not empty, `handleConnections` answers 401 and returns: nothing else is
called (no upgrade) and the server, its registry included, is as it was. -/
theorem handleConnections_unauthorized (parse : String → Except String (List Action))
    (env : String) (up : Except String Conn) (r : Request) (wokReplay : Nat → Bool)
    (frames : List (ReadResult × Bool)) (w : World)
    (h : (headerValues r.header "Fzf-Api-Key" = [] ∧ env ≠ "") ∨
      (∃ v rest, headerValues r.header "Fzf-Api-Key" = v :: rest ∧ v ≠ env)) :
    handleConnections parse env up r wokReplay frames w
        = (w.emit (.writeHeader StatusUnauthorized), .returned) ∧
      (handleConnections parse env up r wokReplay frames w).1.server.clients
        = w.server.clients ∧
      (handleConnections parse env up r wokReplay frames w).1.trace
        = w.trace ++ [.writeHeader 401] := by
  have hne : headerGet r.header "Fzf-Api-Key" ≠ env := by
    rcases h with ⟨h0, hne⟩ | ⟨v, rest, hv, hne⟩
    · simp only [headerGet, h0]
      exact fun h => hne h.symm
    · simp only [headerGet, hv]
      exact hne
  have hrun : handleConnections parse env up r wokReplay frames w
      = (w.emit (.writeHeader StatusUnauthorized), .returned) := by
    simp [handleConnections, handleConnectionsAccept, hne]
  rw [hrun]
  exact ⟨rfl, rfl, rfl⟩

/-- Witness of `handleConnections_unauthorized`: the secret is `secret`, the request
carries the key `guess`. -/
theorem handleConnections_unauthorized_witness :
    handleConnections sampleParse "secret" (.ok 7)
        ⟨"10.0.0.9:4000", [("Fzf-Api-Key", ["guess"])]⟩ (fun _ => true) [] sampleWorld
        = (sampleWorld.emit (.writeHeader StatusUnauthorized), .returned) ∧
      (handleConnections sampleParse "secret" (.ok 7)
        ⟨"10.0.0.9:4000", [("Fzf-Api-Key", ["guess"])]⟩ (fun _ => true) []
        sampleWorld).1.server.clients = sampleWorld.server.clients ∧
      (handleConnections sampleParse "secret" (.ok 7)
        ⟨"10.0.0.9:4000", [("Fzf-Api-Key", ["guess"])]⟩ (fun _ => true) []
        sampleWorld).1.trace = sampleWorld.trace ++ [.writeHeader 401] :=
  handleConnections_unauthorized sampleParse "secret" (.ok 7)
    ⟨"10.0.0.9:4000", [("Fzf-Api-Key", ["guess"])]⟩ (fun _ => true) [] sampleWorld
    (Or.inr ⟨"guess", [], by decide, by decide⟩)

/-! ## Starting the server -/

/-- C8: for a bind address that is not local and an empty secret, `startWebsocketServer`
returns the configuration error and no server, and has called nothing: no listener, no
task. -/
theorem startWebsocketServer_remote_needs_key (isLocal : ListenAddress → Bool)
    (netListen : String → Except String Int) (address : ListenAddress)
    (h : isLocal address = false) :
    startWebsocketServer isLocal "" netListen address
      = ((address.port, some "FZF_API_KEY is required to allow remote access", none), []) := by
  simp [startWebsocketServer, h]

/-- Witness of `startWebsocketServer_remote_needs_key`: the address `0.0.0.0:9000`. -/
theorem startWebsocketServer_remote_needs_key_witness :
    sampleIsLocal ⟨"0.0.0.0", 9000⟩ = false ∧
    startWebsocketServer sampleIsLocal "" (fun _ => .ok 9000) ⟨"0.0.0.0", 9000⟩
      = ((9000, some "FZF_API_KEY is required to allow remote access", none), []) :=
  ⟨by decide,
    startWebsocketServer_remote_needs_key sampleIsLocal (fun _ => .ok 9000) ⟨"0.0.0.0", 9000⟩
      (by decide)⟩

/-! ## The read loops -/

/-- C9, as stated, fails: on a binary frame from peer 1 the server calls `log.Fatal`; the
process ends, peer 1 is still in the registry and its connection was not closed. -/
theorem handleConnections_binary_frame_ends_process :
    handleConnectionsServe sampleParse 1 [(.msg BinaryMessage "x", true)] sampleWorld
      = (⟨⟨"", sampleClients, ["m1", "m2"], true⟩, [.fatal]⟩, .dead) ∧
    (sampleClients.lookup 1).isSome = true ∧
    closeCount 1 [.fatal] = 0 := by
  refine ⟨by rfl, by decide, by decide⟩

/-- C9, amended: for a frame whose kind is none of text, ping, pong or close, the read loop
of the server calls `log.Fatal`, which ends the process; the server, its registry
included, is as it was and the connection is not closed. -/
theorem handleConnections_other_frame_kind_fatal
    (parse : String → Except String (List Action)) (ws : Conn) (messageType : Int)
    (message : String) (wok : Bool) (rest : List (ReadResult × Bool)) (w : World)
    (htext : messageType ≠ TextMessage) (hping : messageType ≠ PingMessage)
    (hpong : messageType ≠ PongMessage) (hclose : messageType ≠ CloseMessage) :
    handleConnectionsRead parse ws (.msg messageType message) wok w
        = (w.emit .fatal, .dead) ∧
      handleConnectionsServe parse ws ((.msg messageType message, wok) :: rest) w
        = (w.emit .fatal, .dead) ∧
      (w.emit .fatal).server = w.server ∧
      closeCount ws (w.emit .fatal).trace = closeCount ws w.trace := by
  have hread : handleConnectionsRead parse ws (.msg messageType message) wok w
      = (w.emit .fatal, .dead) := by
    simp only [handleConnectionsRead, if_neg hclose, if_neg hping, if_neg hpong]
    by_cases hbin : messageType = BinaryMessage
    · simp [hbin]
    · simp [hbin, htext]
  refine ⟨hread, ?_, rfl, ?_⟩
  · simp [handleConnectionsServe, readLoop, hread]
  · simp [closeCount]

/-- Witness of `handleConnections_other_frame_kind_fatal`: a binary frame from peer 1. -/
theorem handleConnections_other_frame_kind_fatal_witness :
    handleConnectionsRead sampleParse 1 (.msg BinaryMessage "x") true sampleWorld
        = (sampleWorld.emit .fatal, .dead) ∧
      handleConnectionsServe sampleParse 1 ((.msg BinaryMessage "x", true) :: []) sampleWorld
        = (sampleWorld.emit .fatal, .dead) ∧
      (sampleWorld.emit .fatal).server = sampleWorld.server ∧
      closeCount 1 (sampleWorld.emit .fatal).trace = closeCount 1 sampleWorld.trace :=
  handleConnections_other_frame_kind_fatal sampleParse 1 BinaryMessage "x" true []
    sampleWorld (by decide) (by decide) (by decide) (by decide)

/-- C4: a text frame whose trimmed text the parser rejects (with message `reason`) or
parses to no action (`reason` is then `no action specified`) makes the read loop of the
server and the read loop of the client call `WriteMessage` once, on the connection the
frame came from, with the text `[bad] ` followed by `reason`; nothing is sent on the
action channel; no other connection receives anything; the loop goes on. -/
theorem read_loops_answer_bad (parse : String → Except String (List Action)) (ws : Conn)
    (message reason : String) (wok : Bool) (w : World) (t : List Effect)
    (h : parse (stringsTrim message "\r\n") = .error reason ∨
      (parse (stringsTrim message "\r\n") = .ok [] ∧ reason = "no action specified")) :
    (writeCalls (handleConnectionsRead parse ws (.msg TextMessage message) wok w).1.trace
        = writeCalls w.trace ++ [(ws, TextMessage, "[bad] " ++ reason)] ∧
      sentActions (handleConnectionsRead parse ws (.msg TextMessage message) wok w).1.trace
        = sentActions w.trace ∧
      (handleConnectionsRead parse ws (.msg TextMessage message) wok w).2 = .next ∧
      (∀ q, q ≠ ws →
        delivered q (handleConnectionsRead parse ws (.msg TextMessage message) wok w).1.trace
          = delivered q w.trace) ∧
      (wok = true →
        delivered ws (handleConnectionsRead parse ws (.msg TextMessage message) wok w).1.trace
          = delivered ws w.trace ++ [(TextMessage, "[bad] " ++ reason)])) ∧
    (writeCalls (clientRead parse ws (.msg TextMessage message) wok t).1
        = writeCalls t ++ [(ws, TextMessage, "[bad] " ++ reason)] ∧
      sentActions (clientRead parse ws (.msg TextMessage message) wok t).1 = sentActions t ∧
      (clientRead parse ws (.msg TextMessage message) wok t).2 = .next ∧
      (∀ q, q ≠ ws →
        delivered q (clientRead parse ws (.msg TextMessage message) wok t).1
          = delivered q t) ∧
      (wok = true →
        delivered ws (clientRead parse ws (.msg TextMessage message) wok t).1
          = delivered ws t ++ [(TextMessage, "[bad] " ++ reason)])) := by
  have hs : handleConnectionsRead parse ws (.msg TextMessage message) wok w
      = (WebsocketServer.bad ws reason wok w, .next) := by
    rcases h with h | ⟨h, hr⟩
    · simp [handleConnectionsRead, h, TextMessage, CloseMessage, BinaryMessage, PingMessage,
        PongMessage]
    · simp [handleConnectionsRead, h, hr, TextMessage, CloseMessage, BinaryMessage,
        PingMessage, PongMessage]
  have hc : clientRead parse ws (.msg TextMessage message) wok t
      = (WebsocketClient.bad ws reason wok t, .next) := by
    rcases h with h | ⟨h, hr⟩
    · simp [clientRead, h]
    · simp [clientRead, h, hr]
  rw [hs, hc]
  cases wok
  · refine ⟨⟨?_, ?_, rfl, ?_, ?_⟩, ?_, ?_, rfl, ?_, ?_⟩ <;>
      simp [WebsocketServer.bad, WebsocketClient.bad, writeCalls, sentActions, delivered]
  · refine ⟨⟨?_, ?_, rfl, ?_, ?_⟩, ?_, ?_, rfl, ?_, ?_⟩ <;>
      simp [WebsocketServer.bad, WebsocketClient.bad, writeCalls, sentActions, delivered]
    all_goals intro q hq hq2; exact absurd hq2.symm hq

/-- Witness of `read_loops_answer_bad`: the line `bogus`, which the sample parser
rejects, arrives from peer 1. -/
theorem read_loops_answer_bad_witness :
    sampleParse (stringsTrim "bogus\r\n" "\r\n") = .error "unknown action: bogus" ∧
    writeCalls (handleConnectionsRead sampleParse 1 (.msg TextMessage "bogus\r\n") true
        sampleWorld).1.trace
      = writeCalls sampleWorld.trace ++ [(1, TextMessage, "[bad] " ++ "unknown action: bogus")] ∧
    sentActions (clientRead sampleParse 1 (.msg TextMessage "bogus\r\n") true []).1
      = sentActions [] :=
  ⟨by rfl,
    (read_loops_answer_bad sampleParse 1 "bogus\r\n" "unknown action: bogus" true sampleWorld
      [] (Or.inl (by rfl))).1.1,
    (read_loops_answer_bad sampleParse 1 "bogus\r\n" "unknown action: bogus" true sampleWorld
      [] (Or.inl (by rfl))).2.2.1⟩

/-! ## The handshake -/

/-- The request header that `startWebsocketClient` passes to the dialer is empty, whatever
the secret, the address and the answer of the dialer: every call of the dialer made has
the empty header. -/
theorem startWebsocketClient_dial_header (env : String)
    (newRequest : String → Except String String) (dial : String → Header → DialResult)
    (connectAddress : String) :
    (dialCalls (startWebsocketClient env newRequest dial connectAddress).2).map Prod.snd
        = [[]] ∨
      dialCalls (startWebsocketClient env newRequest dial connectAddress).2 = [] := by
  unfold startWebsocketClient
  by_cases h0 : env.length = 0
  · right
    simp [h0, dialCalls]
  · cases hreq : newRequest connectAddress with
    | error e =>
      right
      simp [h0, dialCalls]
    | ok reqURL =>
      left
      cases hd : dial reqURL [] with
      | err e => simp [h0, hd, dialCalls]
      | ok wsConn res =>
        by_cases hk : headerGet res "Fzf-Api-Key" = env
        · simp [h0, hd, hk, dialCalls]
        · simp [h0, hd, hk, dialCalls]

/-- C7 on the code: with the secret `secret` the client dials with an empty request header,
in which `Fzf-Api-Key` reads as the empty string, not as the secret; with the empty secret
the client returns its error without dialing. -/
theorem startWebsocketClient_request_lacks_key (dial : String → Header → DialResult)
    (connectAddress : String) :
    (dialCalls (startWebsocketClient "secret" (fun a => .ok a) dial connectAddress).2
        = [(connectAddress, [])] ∧
      headerGet [] "Fzf-Api-Key" = "" ∧ headerGet [] "Fzf-Api-Key" ≠ "secret") ∧
    startWebsocketClient "" (fun a => .ok a) dial connectAddress
      = ((some "FZF_API_KEY is required to use websocket client", none), []) := by
  refine ⟨⟨?_, by decide, by decide⟩, by rfl⟩
  unfold startWebsocketClient
  have h0 : ¬ ("secret".length = 0) := by decide
  cases hd : dial connectAddress [] with
  | err e => simp [h0, hd, dialCalls]
  | ok wsConn res =>
    by_cases hk : headerGet res "Fzf-Api-Key" = "secret"
    · simp [h0, hd, hk, dialCalls]
    · simp [h0, hd, hk, dialCalls]

/-- C6 on the code: server and client both hold the secret `secret`.  The request of the
client reaches the server without the key, the server answers 401 and registers nothing,
and the client returns the error of the dialer.  Besides, the response of an upgrade by
`handleConnections` carries no key, so the client refuses even an accepted handshake. -/
theorem handshake_same_secret_fails (up : Except String Conn) (remoteAddr : String)
    (w : World) (wsConn : Conn) (connectAddress : String) :
    handleConnectionsAccept "secret" up ⟨remoteAddr, [] ++ dialerFields⟩ w
        = (w.emit (.writeHeader StatusUnauthorized), .rejected) ∧
      startWebsocketClient "secret" (fun a => .ok a)
          (dialServer "secret" remoteAddr up w wsConn) connectAddress
        = ((some "websocket: bad handshake", none), [.dial connectAddress []]) ∧
      startWebsocketClient "secret" (fun a => .ok a)
          (fun _ _ => .ok wsConn (upgradeResponse [])) connectAddress
        = ((some "server did not provide valid fzf api key", none),
            [.dial connectAddress [], .close wsConn]) := by
  have hget : headerGet ([] ++ dialerFields) "Fzf-Api-Key" ≠ "secret" := by decide
  have hacc : handleConnectionsAccept "secret" up ⟨remoteAddr, [] ++ dialerFields⟩ w
      = (w.emit (.writeHeader StatusUnauthorized), .rejected) := by
    simp only [handleConnectionsAccept]
    rw [if_pos hget]
  have hdial : dialServer "secret" remoteAddr up w wsConn connectAddress []
      = .err "websocket: bad handshake" := by
    simp only [dialServer, hacc]
  have h0 : ¬ ("secret".length = 0) := by decide
  have hresp : headerGet (upgradeResponse []) "Fzf-Api-Key" ≠ "secret" := by decide
  refine ⟨hacc, ?_, ?_⟩
  · simp [startWebsocketClient, hdial, h0]
  · simp [startWebsocketClient, hresp, h0]

/-! ## Replay -/

/-- C3 on the code: the buffer holds `m1`, `m2`; peer 3 is registered by its handler
(line 112); the broadcaster then takes `m3` from the channel and fans it out; only then
does the handler replay the buffer.  Peer 3 receives `m3`, `m1`, `m2`, `m3`: the message
published after it joined comes first, and comes twice.  Run without interruption before
`m3` is published, the handler delivers `m1`, `m2` and the broadcaster then `m3`. -/
theorem replay_interleaved_with_broadcast :
    delivered 3
        (handleConnectionsReplay 3 (fun _ => true)
          (broadcastOne 0 (fun _ => true) "m3"
            (handleConnectionsAccept "" (.ok 3) ⟨"10.0.0.3:4000", []⟩ sampleWorld).1)).1.trace
      = [(TextMessage, "m3"), (TextMessage, "m1"), (TextMessage, "m2"), (TextMessage, "m3")] ∧
    delivered 3
        (broadcastOne 0 (fun _ => true) "m3"
          (handleConnections sampleParse "" (.ok 3) ⟨"10.0.0.3:4000", []⟩ (fun _ => true) []
            sampleWorld).1).trace
      = [(TextMessage, "m1"), (TextMessage, "m2"), (TextMessage, "m3")] := by
  refine ⟨by decide, by decide⟩

/-! ## The order of `range` -/

theorem insertAt_perm (a : Conn) (i : Nat) (l : List Conn) : (insertAt a i l).Perm (a :: l) := by
  induction l generalizing i with
  | nil => cases i <;> exact List.Perm.refl _
  | cons b l ih =>
    cases i with
    | zero => exact List.Perm.refl _
    | succ i => exact ((ih i).cons b).trans (List.Perm.swap a b l)

/-- The order of `range` is a rearrangement of the keys. -/
theorem rangeOrder_perm (seed : Nat) (keys : List Conn) : (rangeOrder seed keys).Perm keys := by
  induction keys generalizing seed with
  | nil => exact List.Perm.refl _
  | cons k ks ih =>
    exact (insertAt_perm k _ _).trans ((ih _).cons k)

theorem insertAt_indexOf_erase (k : Conn) (l : List Conn) (h : k ∈ l) :
    insertAt k (l.indexOf k) (l.erase k) = l := by
  induction l with
  | nil => cases h
  | cons b l ih =>
    by_cases hb : b = k
    · subst hb
      simp [insertAt]
    · have hk : k ∈ l := by
        rcases List.mem_cons.mp h with h | h
        · exact absurd h.symm hb
        · exact h
      have hne : ¬ ((b == k) = true) := by simpa using hb
      rw [List.indexOf_cons_ne l hb, List.erase_cons_tail hne]
      simp [insertAt, ih hk]

/-- Every rearrangement of the keys is the order of `range` for some seed. -/
theorem rangeOrder_complete (keys order : List Conn) (h : order.Perm keys) :
    ∃ seed, rangeOrder seed keys = order := by
  induction keys generalizing order with
  | nil => exact ⟨0, by simp [rangeOrder, List.Perm.eq_nil h]⟩
  | cons k ks ih =>
    have hk : k ∈ order := h.symm.subset (List.mem_cons_self k ks)
    have hperm : (order.erase k).Perm ks := by
      have := h.erase k
      simpa using this
    obtain ⟨seed, hseed⟩ := ih (order.erase k) hperm
    have hlen : order.length = ks.length + 1 := by simpa using h.length_eq
    have hidx : order.indexOf k < ks.length + 1 := by
      rw [← hlen]
      exact List.indexOf_lt_length.mpr hk
    refine ⟨order.indexOf k + seed * (ks.length + 1), ?_⟩
    have hmod : (order.indexOf k + seed * (ks.length + 1)) % (ks.length + 1)
        = order.indexOf k := by
      rw [Nat.add_mul_mod_self_right]
      exact Nat.mod_eq_of_lt hidx
    have hdiv : (order.indexOf k + seed * (ks.length + 1)) / (ks.length + 1) = seed := by
      rw [Nat.add_mul_div_right _ _ (Nat.succ_pos _), Nat.div_eq_of_lt hidx, Nat.zero_add]
    simp only [rangeOrder]
    rw [hmod, hdiv, hseed]
    exact insertAt_indexOf_erase k order hk

/-! ## The fan-out -/

theorem fanOut_relayBuffer (msg : String) (wok : Conn → Bool) (l : List Conn) (w : World) :
    (fanOut msg wok l w).server.relayBuffer = w.server.relayBuffer := by
  induction l generalizing w with
  | nil => rfl
  | cons c rest ih =>
    simp only [fanOut]
    split_ifs <;> simp [ih]

/-- After the fan-out a peer is registered exactly when it was registered before and was
not visited with a failing write. -/
theorem fanOut_lookup (msg : String) (wok : Conn → Bool) (l : List Conn) (w : World)
    (q : Conn) :
    (fanOut msg wok l w).server.clients.lookup q
      = if q ∈ l ∧ wok q = false then none else w.server.clients.lookup q := by
  induction l generalizing w with
  | nil => simp [fanOut]
  | cons c rest ih =>
    simp only [fanOut]
    by_cases hreg : (w.server.clients.lookup c).isSome = true
    · by_cases hok : wok c = true
      · rw [if_pos hreg, if_pos hok, ih]
        by_cases hq : q = c
        · subst hq
          simp [hok]
        · simp [hq]
      · rw [if_pos hreg, if_neg hok, ih]
        have hok2 : wok c = false := by simpa using hok
        by_cases hq : q = c
        · subst hq
          simp [hok2, AList.lookup_erase]
        · simp [hq, AList.lookup_erase_ne hq]
    · rw [if_neg hreg, ih]
      by_cases hq : q = c
      · subst hq
        have hnone : w.server.clients.lookup q = none := by
          cases hl : w.server.clients.lookup q with
          | none => rfl
          | some v => simp [hl] at hreg
        simp [hnone]
      · simp [hq]

/-- What the fan-out delivers to a peer: the message, once, when the peer is visited,
registered and its write succeeds; nothing otherwise. -/
theorem fanOut_delivered (msg : String) (wok : Conn → Bool) (l : List Conn) (w : World)
    (p : Conn) (hnd : l.Nodup) :
    delivered p (fanOut msg wok l w).trace
      = delivered p w.trace ++
        (if p ∈ l ∧ (w.server.clients.lookup p).isSome = true ∧ wok p = true
          then [(TextMessage, msg)] else []) := by
  induction l generalizing w with
  | nil => simp [fanOut]
  | cons c rest ih =>
    have hc : c ∉ rest := (List.nodup_cons.mp hnd).1
    have hrest : rest.Nodup := (List.nodup_cons.mp hnd).2
    simp only [fanOut]
    by_cases hreg : (w.server.clients.lookup c).isSome = true
    · by_cases hok : wok c = true
      · rw [if_pos hreg, if_pos hok, ih _ hrest]
        by_cases hq : p = c
        · subst hq
          simp [hok, hreg, hc, delivered]
        · have hq2 : ¬ c = p := fun h => hq h.symm
          simp [hq, hq2, delivered]
      · rw [if_pos hreg, if_neg hok, ih _ hrest]
        by_cases hq : p = c
        · subst hq
          simp [hok, hc, delivered]
        · simp [hq, delivered, AList.lookup_erase_ne hq]
    · rw [if_neg hreg, ih _ hrest]
      by_cases hq : p = c
      · subst hq
        simp [hreg, hc]
      · simp [hq]

/-- The calls of `Close` the fan-out makes on a connection: one, when the peer is visited,
registered and its write fails; none otherwise. -/
theorem fanOut_closeCount (msg : String) (wok : Conn → Bool) (l : List Conn) (w : World)
    (p : Conn) (hnd : l.Nodup) :
    closeCount p (fanOut msg wok l w).trace
      = closeCount p w.trace +
        (if p ∈ l ∧ (w.server.clients.lookup p).isSome = true ∧ wok p = false
          then 1 else 0) := by
  induction l generalizing w with
  | nil => simp [fanOut]
  | cons c rest ih =>
    have hc : c ∉ rest := (List.nodup_cons.mp hnd).1
    have hrest : rest.Nodup := (List.nodup_cons.mp hnd).2
    simp only [fanOut]
    by_cases hreg : (w.server.clients.lookup c).isSome = true
    · by_cases hok : wok c = true
      · rw [if_pos hreg, if_pos hok, ih _ hrest]
        by_cases hq : p = c
        · subst hq
          simp [hok, hc, closeCount]
        · simp [hq, closeCount]
      · rw [if_pos hreg, if_neg hok, ih _ hrest]
        have hok2 : wok c = false := by simpa using hok
        by_cases hq : p = c
        · subst hq
          simp [hok2, hreg, hc, closeCount]
        · have hq2 : ¬ c = p := fun h => hq h.symm
          simp [hq, hq2, closeCount, AList.lookup_erase_ne hq]
    · rw [if_neg hreg, ih _ hrest]
      by_cases hq : p = c
      · subst hq
        simp [hreg, hc]
      · simp [hq]

theorem erase_of_lookup_none (s : AList (fun _ : Conn => String)) (p : Conn)
    (h : s.lookup p = none) : s.erase p = s := by
  apply AList.ext
  exact List.kerase_of_not_mem_keys (AList.lookup_eq_none.mp h)

/-- When the write to `p` is the only one that can fail, the fan-out leaves the registry
with `p` removed if `p` was visited, and as it was otherwise. -/
theorem fanOut_clients_single (msg : String) (wok : Conn → Bool) (l : List Conn) (w : World)
    (p : Conn) (hnd : l.Nodup) (hfail : wok p = false) (hothers : ∀ q, q ≠ p → wok q = true) :
    (fanOut msg wok l w).server.clients
      = if p ∈ l then w.server.clients.erase p else w.server.clients := by
  induction l generalizing w with
  | nil => simp [fanOut]
  | cons c rest ih =>
    have hc : c ∉ rest := (List.nodup_cons.mp hnd).1
    have hrest : rest.Nodup := (List.nodup_cons.mp hnd).2
    simp only [fanOut]
    by_cases hq : c = p
    · subst hq
      by_cases hreg : (w.server.clients.lookup c).isSome = true
      · have hnok : ¬ (wok c = true) := by simp [hfail]
        rw [if_pos hreg, if_neg hnok, ih _ hrest]
        simp [hc]
      · have hnone : w.server.clients.lookup c = none := by
          cases hl : w.server.clients.lookup c with
          | none => rfl
          | some v => simp [hl] at hreg
        rw [if_neg hreg, ih _ hrest]
        simp [hc, erase_of_lookup_none _ _ hnone]
    · have hok : wok c = true := hothers c hq
      have hq2 : ¬ p = c := fun h => hq h.symm
      by_cases hreg : (w.server.clients.lookup c).isSome = true
      · rw [if_pos hreg, if_pos hok, ih _ hrest]
        simp [hq2]
      · rw [if_neg hreg, ih _ hrest]
        simp [hq2]

/-! ## One turn of the broadcaster -/

theorem rangeOrder_keys_nodup (seed : Nat) (s : AList (fun _ : Conn => String)) :
    (rangeOrder seed s.keys).Nodup :=
  (rangeOrder_perm seed s.keys).nodup_iff.mpr s.keys_nodup

theorem mem_rangeOrder_keys (seed : Nat) (s : AList (fun _ : Conn => String)) (p : Conn) :
    p ∈ rangeOrder seed s.keys ↔ (s.lookup p).isSome = true :=
  (rangeOrder_perm seed s.keys).mem_iff.trans (AList.mem_keys.symm.trans AList.lookup_isSome.symm)

theorem broadcastOne_relayBuffer (seed : Nat) (wok : Conn → Bool) (msg : String) (w : World) :
    (broadcastOne seed wok msg w).server.relayBuffer = w.server.relayBuffer ++ [msg] := by
  simp [broadcastOne, fanOut_relayBuffer]

/-- After one turn of the broadcaster a peer whose write succeeds has the entry it had, a
peer whose write fails has none. -/
theorem broadcastOne_lookup (seed : Nat) (wok : Conn → Bool) (msg : String) (w : World)
    (q : Conn) :
    (broadcastOne seed wok msg w).server.clients.lookup q
      = if wok q = true then w.server.clients.lookup q else none := by
  simp only [broadcastOne, fanOut_lookup, mem_rangeOrder_keys]
  cases hq : wok q
  · cases hl : w.server.clients.lookup q <;> simp
  · simp

/-- One turn of the broadcaster delivers the message once to each registered peer whose
write succeeds, and nothing to any other connection. -/
theorem broadcastOne_delivered (seed : Nat) (wok : Conn → Bool) (msg : String) (w : World)
    (p : Conn) :
    delivered p (broadcastOne seed wok msg w).trace
      = delivered p w.trace ++
        (if (w.server.clients.lookup p).isSome = true ∧ wok p = true
          then [(TextMessage, msg)] else []) := by
  simp only [broadcastOne]
  rw [fanOut_delivered _ _ _ _ _ (rangeOrder_keys_nodup seed _)]
  simp only [mem_rangeOrder_keys]
  by_cases h : (w.server.clients.lookup p).isSome = true <;> simp [h]

theorem broadcastOne_closeCount (seed : Nat) (wok : Conn → Bool) (msg : String) (w : World)
    (p : Conn) :
    closeCount p (broadcastOne seed wok msg w).trace
      = closeCount p w.trace +
        (if (w.server.clients.lookup p).isSome = true ∧ wok p = false then 1 else 0) := by
  simp only [broadcastOne]
  rw [fanOut_closeCount _ _ _ _ _ (rangeOrder_keys_nodup seed _)]
  simp only [mem_rangeOrder_keys]
  by_cases h : (w.server.clients.lookup p).isSome = true <;> simp [h]

/-! ## Broadcast order -/

/-- C2: for every sequence of messages published on the broadcast channel and every peer
that is registered and to which every write succeeds, `handleBroadcastMessages` delivers
to that peer exactly those messages, each once, in publish order; the peer keeps its entry
in the registry and the relay buffer grows by the same messages. -/
theorem handleBroadcastMessages_delivers_in_order (ps : List Publish) (w : World) (p : Conn)
    (hreg : (w.server.clients.lookup p).isSome = true) (hok : ∀ q ∈ ps, q.wok p = true) :
    delivered p (handleBroadcastMessages ps w).trace
        = delivered p w.trace ++ ps.map (fun q => (TextMessage, q.msg)) ∧
      (handleBroadcastMessages ps w).server.clients.lookup p = w.server.clients.lookup p ∧
      (handleBroadcastMessages ps w).server.relayBuffer
        = w.server.relayBuffer ++ ps.map (fun q => q.msg) := by
  induction ps generalizing w with
  | nil => simp [handleBroadcastMessages]
  | cons a rest ih =>
    have ha : a.wok p = true := hok a (List.mem_cons_self a rest)
    have hrest : ∀ q ∈ rest, q.wok p = true := fun q hq => hok q (List.mem_cons_of_mem a hq)
    have hl : (broadcastOne a.seed a.wok a.msg w).server.clients.lookup p
        = w.server.clients.lookup p := by
      rw [broadcastOne_lookup, if_pos ha]
    have hreg1 : ((broadcastOne a.seed a.wok a.msg w).server.clients.lookup p).isSome = true := by
      rw [hl]
      exact hreg
    obtain ⟨h1, h2, h3⟩ := ih (broadcastOne a.seed a.wok a.msg w) hreg1 hrest
    simp only [handleBroadcastMessages]
    refine ⟨?_, ?_, ?_⟩
    · rw [h1, broadcastOne_delivered, if_pos ⟨hreg, ha⟩]
      simp
    · rw [h2, hl]
    · rw [h3, broadcastOne_relayBuffer]
      simp

/-- Witness of `handleBroadcastMessages_delivers_in_order`: `m3` and `m4` are published;
the write of `m4` to peer 2 fails; peer 1 receives `m3`, `m4`. -/
theorem handleBroadcastMessages_delivers_in_order_witness :
    delivered 1
        (handleBroadcastMessages [⟨"m3", 0, fun _ => true⟩, ⟨"m4", 5, fun c => c != 2⟩]
          sampleWorld).trace
      = [(TextMessage, "m3"), (TextMessage, "m4")] :=
  (handleBroadcastMessages_delivers_in_order
    [⟨"m3", 0, fun _ => true⟩, ⟨"m4", 5, fun c => c != 2⟩] sampleWorld 1 (by decide)
    (by
      intro q hq
      simp only [List.mem_cons, List.mem_singleton, List.not_mem_nil, or_false] at hq
      rcases hq with rfl | rfl <;> rfl)).1

/-! ## A failing write during the fan-out -/

/-- C5: when, during the fan-out of a dequeued message, the write to the registered peer
`p` fails and the writes to the others succeed, the registry afterwards is the registry
with exactly `p` removed, every other registered peer has its entry and has received the
message, `p` has received nothing, and the message is at the end of the relay buffer. -/
theorem handleBroadcastMessages_write_failure (seed : Nat) (wok : Conn → Bool) (msg : String)
    (w : World) (p : Conn) (hreg : (w.server.clients.lookup p).isSome = true)
    (hfail : wok p = false) (hothers : ∀ q, q ≠ p → wok q = true) :
    (broadcastOne seed wok msg w).server.clients = w.server.clients.erase p ∧
      (broadcastOne seed wok msg w).server.clients.lookup p = none ∧
      (∀ q, q ≠ p → (w.server.clients.lookup q).isSome = true →
        (broadcastOne seed wok msg w).server.clients.lookup q = w.server.clients.lookup q ∧
        delivered q (broadcastOne seed wok msg w).trace
          = delivered q w.trace ++ [(TextMessage, msg)]) ∧
      delivered p (broadcastOne seed wok msg w).trace = delivered p w.trace ∧
      (broadcastOne seed wok msg w).server.relayBuffer = w.server.relayBuffer ++ [msg] := by
  refine ⟨?_, ?_, ?_, ?_, broadcastOne_relayBuffer seed wok msg w⟩
  · simp only [broadcastOne]
    rw [fanOut_clients_single _ _ _ _ p (rangeOrder_keys_nodup seed _) hfail hothers]
    rw [if_pos ((mem_rangeOrder_keys seed _ p).mpr hreg)]
  · rw [broadcastOne_lookup]
    simp [hfail]
  · intro q hq hqreg
    refine ⟨?_, ?_⟩
    · rw [broadcastOne_lookup, if_pos (hothers q hq)]
    · rw [broadcastOne_delivered, if_pos ⟨hqreg, hothers q hq⟩]
  · rw [broadcastOne_delivered]
    simp [hfail]

/-- Witness of `handleBroadcastMessages_write_failure`: the write of `m3` to peer 1 fails;
peer 2 stays and receives `m3`. -/
theorem handleBroadcastMessages_write_failure_witness :
    (broadcastOne 3 (fun c => c != 1) "m3" sampleWorld).server.clients
        = sampleWorld.server.clients.erase 1 ∧
      delivered 2 (broadcastOne 3 (fun c => c != 1) "m3" sampleWorld).trace
        = delivered 2 sampleWorld.trace ++ [(TextMessage, "m3")] :=
  ⟨(handleBroadcastMessages_write_failure 3 (fun c => c != 1) "m3" sampleWorld 1 (by decide)
      (by decide) (by
        intro q hq
        simpa using hq)).1,
    ((handleBroadcastMessages_write_failure 3 (fun c => c != 1) "m3" sampleWorld 1 (by decide)
      (by decide) (by
        intro q hq
        simpa using hq)).2.2.1 2 (by decide) (by decide)).2⟩

/-! ## Deregistration -/

/-- A replay that stops on a failing write has removed the peer and called `Close` once. -/
theorem replayLoop_failed (ws : Conn) (wok : Nat → Bool) (msgs : List String) (i : Nat)
    (w : World) (h : (replayLoop ws wok msgs i w).2 = false) :
    (replayLoop ws wok msgs i w).1.server.clients = w.server.clients.erase ws ∧
      closeCount ws (replayLoop ws wok msgs i w).1.trace = closeCount ws w.trace + 1 := by
  induction msgs generalizing i w with
  | nil => simp [replayLoop] at h
  | cons m rest ih =>
    simp only [replayLoop] at h ⊢
    by_cases hw : wok i = true
    · rw [if_pos hw] at h ⊢
      obtain ⟨h1, h2⟩ := ih (i + 1) _ h
      rw [h1, h2]
      simp [closeCount]
    · rw [if_neg hw]
      simp [closeCount]

/-- A replay in which some write fails stops with a failure. -/
theorem replayLoop_fails (ws : Conn) (wok : Nat → Bool) (msgs : List String) (i j : Nat)
    (w : World) (hj : j < msgs.length) (hw : wok (i + j) = false) :
    (replayLoop ws wok msgs i w).2 = false := by
  induction msgs generalizing i j w with
  | nil => simp at hj
  | cons m rest ih =>
    simp only [replayLoop]
    by_cases hi : wok i = true
    · rw [if_pos hi]
      cases j with
      | zero => simp [hi] at hw
      | succ j =>
        apply ih (i + 1) j
        · simpa using hj
        · rw [← hw]
          congr 1
          omega
    · rw [if_neg hi]

/-- A replay whose writes all succeed delivers the messages, in order, to the new peer and
leaves the server as it was. -/
theorem replayLoop_delivers (ws : Conn) (wok : Nat → Bool) (msgs : List String) (i : Nat)
    (w : World) (hok : ∀ j, wok j = true) :
    (replayLoop ws wok msgs i w).2 = true ∧
      delivered ws (replayLoop ws wok msgs i w).1.trace
        = delivered ws w.trace ++ msgs.map (fun m => (TextMessage, m)) ∧
      (replayLoop ws wok msgs i w).1.server = w.server := by
  induction msgs generalizing i w with
  | nil => simp [replayLoop]
  | cons m rest ih =>
    simp only [replayLoop]
    rw [if_pos (hok i)]
    obtain ⟨h1, h2, h3⟩ := ih (i + 1) (w.emit (.write ws TextMessage m))
    refine ⟨h1, ?_, ?_⟩
    · rw [h2]
      simp [delivered]
    · rw [h3]
      rfl

/-- A replay phase that fails has removed the peer and called `Close` once. -/
theorem handleConnectionsReplay_failed (ws : Conn) (wok : Nat → Bool) (w : World)
    (h : (handleConnectionsReplay ws wok w).2 = false) :
    (handleConnectionsReplay ws wok w).1.server.clients = w.server.clients.erase ws ∧
      closeCount ws (handleConnectionsReplay ws wok w).1.trace = closeCount ws w.trace + 1 := by
  unfold handleConnectionsReplay at h ⊢
  by_cases hr : w.server.replay = true
  · rw [if_pos hr] at h ⊢
    exact replayLoop_failed ws wok _ 0 w h
  · rw [if_neg hr] at h
    simp at h

/-- A handler that has passed the gate and upgraded, and whose replay fails, returns after
its deferred `Close`. -/
theorem handleConnections_joined (parse : String → Except String (List Action))
    (env : String) (r : Request) (ws : Conn) (wokReplay : Nat → Bool)
    (frames : List (ReadResult × Bool)) (w : World)
    (henv : headerGet r.header "Fzf-Api-Key" = env)
    (hf : (handleConnectionsReplay ws wokReplay
      ((w.emit (.upgrade ws)).register ws ("Client-" ++ r.remoteAddr))).2 = false) :
    handleConnections parse env (.ok ws) r wokReplay frames w
      = ((handleConnectionsReplay ws wokReplay
          ((w.emit (.upgrade ws)).register ws ("Client-" ++ r.remoteAddr))).1.emit (.close ws),
        .returned) := by
  have hacc : handleConnectionsAccept env (.ok ws) r w
      = ((w.emit (.upgrade ws)).register ws ("Client-" ++ r.remoteAddr), .joined ws) := by
    simp [handleConnectionsAccept, henv]
  simp only [handleConnections, hacc]
  generalize handleConnectionsReplay ws wokReplay
    ((w.emit (.upgrade ws)).register ws ("Client-" ++ r.remoteAddr)) = res at hf
  obtain ⟨w2, b⟩ := res
  simp only at hf
  subst hf
  rfl

/-- C10, as stated, fails: after the broadcaster's failing write to peer 1 and the read
error of peer 1's handler, `Close` has been called twice on peer 1's connection; so it has
after a failing replay write to the new peer 7 alone. -/
theorem deregistration_closes_twice :
    closeCount 1
        (handleConnectionsServe sampleParse 1 [(.err, true)]
          (broadcastOne 0 (fun c => c != 1) "m3" sampleWorld)).1.trace = 2 ∧
    closeCount 7
        (handleConnections sampleParse "" (.ok 7) ⟨"10.0.0.7:4000", []⟩ (fun _ => false) []
          sampleWorld).1.trace = 2 := by
  refine ⟨by decide, by decide⟩

/-- C10, amended: deregistration is idempotent on the registry, and each path that closes
the connection calls `Close`.  After the broadcast-write-error path for the registered peer
`p`, the read-error path of `p`'s handler leaves the registry equal to the registry after
the first deregistration, with `p` absent and the entry of every other peer whose write
succeeded as it was before both; `Close` has then been called twice on `p`'s connection
(by the broadcaster, and by the handler's deferred call).  The statement
`delete(server.clients, p)` done twice equals done once.  A handler whose replay write
fails returns with the new peer absent, every other entry unchanged, and two calls of
`Close` (the explicit one and the deferred one). -/
theorem deregistration_twice (parse : String → Except String (List Action)) (seed : Nat)
    (wok : Conn → Bool) (msg : String) (w : World) (p : Conn) (wokRead : Bool)
    (rest : List (ReadResult × Bool))
    (hreg : (w.server.clients.lookup p).isSome = true) (hfail : wok p = false) :
    ((handleConnectionsServe parse p ((.err, wokRead) :: rest)
          (broadcastOne seed wok msg w)).1.server.clients
        = (broadcastOne seed wok msg w).server.clients ∧
      (handleConnectionsServe parse p ((.err, wokRead) :: rest)
          (broadcastOne seed wok msg w)).1.server.clients.lookup p = none ∧
      (∀ q, q ≠ p → wok q = true →
        (handleConnectionsServe parse p ((.err, wokRead) :: rest)
          (broadcastOne seed wok msg w)).1.server.clients.lookup q
          = w.server.clients.lookup q) ∧
      closeCount p (handleConnectionsServe parse p ((.err, wokRead) :: rest)
          (broadcastOne seed wok msg w)).1.trace = closeCount p w.trace + 2) ∧
    (w.deleteClient p).deleteClient p = w.deleteClient p ∧
    (∀ (env : String) (r : Request) (ws : Conn) (wokReplay : Nat → Bool)
        (frames : List (ReadResult × Bool)) (i : Nat),
      headerGet r.header "Fzf-Api-Key" = env → w.server.replay = true →
      i < w.server.relayBuffer.length → wokReplay i = false →
      (handleConnections parse env (.ok ws) r wokReplay frames w).2 = .returned ∧
      (handleConnections parse env (.ok ws) r wokReplay frames w).1.server.clients.lookup ws
        = none ∧
      (∀ q, q ≠ ws →
        (handleConnections parse env (.ok ws) r wokReplay frames w).1.server.clients.lookup q
          = w.server.clients.lookup q) ∧
      closeCount ws (handleConnections parse env (.ok ws) r wokReplay frames w).1.trace
        = closeCount ws w.trace + 2) := by
  have hlook : (broadcastOne seed wok msg w).server.clients.lookup p = none := by
    rw [broadcastOne_lookup]
    simp [hfail]
  have hserve : handleConnectionsServe parse p ((.err, wokRead) :: rest)
      (broadcastOne seed wok msg w)
      = (((broadcastOne seed wok msg w).deleteClient p).emit (.close p), .returned) := by
    simp [handleConnectionsServe, readLoop, handleConnectionsRead]
  have herase : (broadcastOne seed wok msg w).server.clients.erase p
      = (broadcastOne seed wok msg w).server.clients := erase_of_lookup_none _ _ hlook
  refine ⟨⟨?_, ?_, ?_, ?_⟩, ?_, ?_⟩
  · rw [hserve]
    simp [herase]
  · rw [hserve]
    simp [AList.lookup_erase]
  · intro q hq hqok
    rw [hserve]
    simp only [emit_server, deleteClient_clients, herase]
    rw [broadcastOne_lookup, if_pos hqok]
  · rw [hserve]
    simp only [emit_trace, deleteClient_trace, closeCount_append]
    rw [broadcastOne_closeCount, if_pos ⟨hreg, hfail⟩]
    simp [closeCount]
  · have h2 : (w.server.clients.erase p).erase p = w.server.clients.erase p :=
      erase_of_lookup_none _ _ (AList.lookup_erase p _)
    simp [World.deleteClient, h2]
  · intro env r ws wokReplay frames i henv hreplay hi hwok
    have hf : (handleConnectionsReplay ws wokReplay
        ((w.emit (.upgrade ws)).register ws ("Client-" ++ r.remoteAddr))).2 = false := by
      simp only [handleConnectionsReplay, register_replay, emit_server, hreplay, if_true,
        register_relayBuffer]
      exact replayLoop_fails ws wokReplay w.server.relayBuffer 0 i _ hi (by simpa using hwok)
    obtain ⟨hc, hn⟩ := handleConnectionsReplay_failed ws wokReplay _ hf
    rw [handleConnections_joined parse env r ws wokReplay frames w henv hf]
    refine ⟨rfl, ?_, ?_, ?_⟩
    · simp only [emit_server, hc]
      exact AList.lookup_erase ws _
    · intro q hq
      simp only [emit_server, hc, register_clients]
      rw [AList.lookup_erase_ne hq, AList.lookup_insert_ne hq]
    · simp only [emit_trace, closeCount_append, hn, register_trace]
      simp [closeCount]

/-- Witness of `deregistration_twice`: the write of `m3` to peer 1 fails, then the read of
peer 1's handler fails. -/
theorem deregistration_twice_witness :
    closeCount 1 (handleConnectionsServe sampleParse 1 ((.err, true) :: [])
        (broadcastOne 0 (fun c => c != 1) "m3" sampleWorld)).1.trace
      = closeCount 1 sampleWorld.trace + 2 ∧
    (sampleWorld.deleteClient 1).deleteClient 1 = sampleWorld.deleteClient 1 :=
  ⟨(deregistration_twice sampleParse 0 (fun c => c != 1) "m3" sampleWorld 1 true []
      (by decide) (by decide)).1.2.2.2,
    (deregistration_twice sampleParse 0 (fun c => c != 1) "m3" sampleWorld 1 true []
      (by decide) (by decide)).2.1⟩

end Fzf
